import Mathlib

/-!
Verification of the wa-bot command-dispatch and delivery-reliability layer.

Strings from the Go source are modelled as `List Char`; Go's `strings.ToLower`
is modelled by `Char.toLower` (the command keywords and prefixes are ASCII).
Stateful code is modelled by explicit state passing; external collaborators
(the WhatsApp transport, the group-JID parser of the whatsmeow library, the
Gemini generation call) are parameters of the functions that call them.
A Go `panic` is modelled by an `Option` result being `none`.
-/

namespace WaBot

/-- Shorthand: the character list of a string literal. -/
def str (s : String) : List Char := s.data

/-- Go `strings.HasPrefix s p` on character lists. -/
def startsWith : List Char → List Char → Bool
  | _, [] => true
  | [], _ :: _ => false
  | c :: s, p :: ps => c == p && startsWith s ps

/-- Go `strings.HasSuffix s p` on character lists. -/
def endsWith (s p : List Char) : Bool := startsWith s.reverse p.reverse

/-- Go `strings.TrimSpace` on character lists. -/
def trim (s : List Char) : List Char :=
  ((s.dropWhile Char.isWhitespace).reverse.dropWhile Char.isWhitespace).reverse

/-- `regexp.MustCompile(\D).ReplaceAllString(phone, "")`: keep only digits. -/
def stripNonDigits (s : List Char) : List Char := s.filter Char.isDigit

/-- Go `strings.ToLower` (ASCII model) on character lists. -/
def lower (s : List Char) : List Char := s.map Char.toLower

/-- Go `strings.Split(s, sep)` for a one-character separator. -/
def splitChar (sep : Char) : List Char → List (List Char)
  | [] => [[]]
  | c :: rest =>
    match splitChar sep rest with
    | [] => [[]]
    | g :: gs => if c = sep then [] :: g :: gs else (c :: g) :: gs

/-- Go `strings.TrimPrefix s p`. -/
def trimPrefixStr (s p : List Char) : List Char :=
  if startsWith s p then s.drop p.length else s

/-- `fmt.Sprintf("%d", n)` for a natural number. -/
def showNat (n : Nat) : List Char := Nat.toDigits 10 n

/-- `fmt.Sprintf("%d", n)` for a Go int. -/
def showInt (n : Int) : List Char :=
  if n < 0 then '-' :: Nat.toDigits 10 n.natAbs else Nat.toDigits 10 n.toNat

/-! ## Target Resolver (src/unnamed/part_004 and part_005) -/

/-- `normalizePhoneNumber` from part_005 lines 100-121: strip non-digits,
then rewrite the prefix through the chain of four conditionals. -/
def normalizePhoneNumber (phone0 : List Char) : List Char :=
  let phone1 := stripNonDigits phone0
  let phone2 := if startsWith phone1 (str "08")
    then '6' :: '2' :: '8' :: phone1.drop 2 else phone1
  let phone3 := if startsWith phone2 (str "8") && !startsWith phone2 (str "62")
    then '6' :: '2' :: phone2 else phone2
  let phone4 := if startsWith phone3 (str "+62") then phone3.drop 1 else phone3
  if !startsWith phone4 (str "62") then '6' :: '2' :: phone4 else phone4

/-- `isGroupJID` from part_005 lines 39-42: group JIDs end with `@g.us`. -/
def isGroupJID (target : List Char) : Bool := endsWith target (str "@g.us")

/-- The result of `createTargetJID`: a whatsmeow `types.JID`, restricted to
what the handler distinguishes (group, individual with user part, or the
empty JID returned when group parsing fails). -/
inductive JID where
  | group (raw : List Char)
  | individual (user : List Char)
  | empty
deriving DecidableEq

/-- `createTargetJID` from part_005 lines 44-62.  `parseGroupJID` stands for
the external `types.ParseJID` of the whatsmeow library (`none` = parse
error, in which case the code returns the empty JID). -/
def createTargetJID (parseGroupJID : List Char → Option (List Char))
    (target0 : List Char) : JID :=
  let target := trim target0
  if isGroupJID target then
    match parseGroupJID target with
    | some g => .group g
    | none => .empty
  else
    .individual (normalizePhoneNumber target)

/-! ## Command Classifier (src/unnamed/part_005 lines 17-21, part_006 lines 160-189) -/

/-- `hasCommandPrefix` from part_005 lines 17-21: case-insensitive prefix test. -/
def hasCommandPrefix (message command : List Char) : Bool :=
  startsWith (lower message) (lower command)

/-- The commands of the `EventHandler` dispatch chain in part_006. -/
inductive Command where
  | help | hallo | ping | status | info | groups | test | echo | fiq | apik | idx | img
  | unrecognized
deriving DecidableEq

/-- The keywords of the `EventHandler` if/else chain (part_006 lines 165-189),
in source order; each branch tests `hasCommandPrefix(message, "/<kw>") ||
hasCommandPrefix(message, "!<kw>")`. -/
def commandTable : List (List Char × Command) :=
  [(str "help", .help), (str "hallo", .hallo), (str "ping", .ping),
   (str "status", .status), (str "info", .info), (str "groups", .groups),
   (str "test", .test), (str "echo", .echo), (str "fiq", .fiq),
   (str "apik", .apik), (str "idx", .idx), (str "img", .img)]

/-- The command the `EventHandler` if/else chain dispatches to: the first
keyword whose `/`- or `!`-prefixed form matches, else no command. -/
def classify (m : List Char) : Command :=
  match commandTable.find?
      (fun kc => hasCommandPrefix m ('/' :: kc.1) || hasCommandPrefix m ('!' :: kc.1)) with
  | some kc => kc.2
  | none => .unrecognized

/-- What the `EventHandler` (part_006 lines 138-194) does with one inbound
message event. -/
inductive DispatchAction where
  | drop
  | dispatch (c : Command)
deriving DecidableEq

/-- The `events.Message` arm of `EventHandler`, acting on the extracted
message text: blank text is dropped, otherwise the if/else chain runs and an
unrecognized body falls through with no action.  Note: the source consults
no mute list here — `shouldIgnoreGroup` (part_004 lines 63-79) has no caller. -/
def eventHandlerAction (message : List Char) : DispatchAction :=
  if trim message = [] then .drop
  else if classify message = .unrecognized then .drop
  else .dispatch (classify message)

/-- `getNoResponseGroups` from part_004 lines 46-61: split the `NO_RESPONSE`
environment value on `;`, trim, drop empties. -/
def getNoResponseGroups (noResponse : List Char) : List (List Char) :=
  if noResponse = [] then []
  else ((splitChar ';' noResponse).map trim).filter (fun t => t ≠ [])

/-- `shouldIgnoreGroup` from part_004 lines 63-79, with the `NO_RESPONSE`
environment value passed explicitly. -/
def shouldIgnoreGroup (noResponse chatJID : List Char) : Bool :=
  let noResponseGroups := getNoResponseGroups noResponse
  if noResponseGroups = [] then false
  else noResponseGroups.any (fun ignoredJID => trim ignoredJID = trim chatJID)

/-- The swap of the two command prefix characters `!` and `/`, under which the
spec claims classification is invariant. -/
def swapPfx (c : Char) : Char :=
  if c = '!' then '/' else if c = '/' then '!' else c

/-! ## Delivery Engine (src/unnamed/part_005 lines 124-143) -/

/-- Observable trace of one `sendMessageWithRetry` call: the returned error
(`none` = success), how many `SendMessage` attempts ran, and the argument of
each `time.Sleep` in order. -/
structure RetryTrace (E : Type) where
  err : Option E
  attempts : Nat
  sleeps : List Nat
deriving DecidableEq

/-- The loop of `sendMessageWithRetry`, at loop index `i` with
`fuel = maxRetries - i` iterations left.  `send k` is the outcome of the
`WaClient.SendMessage` call of attempt `k` (`none` = success). -/
def sendMessageWithRetryAux (send : Nat → Option E) (i : Nat) : Nat → RetryTrace E
  | 0 => ⟨none, 0, []⟩
  | fuel + 1 =>
    match send i with
    | none => ⟨none, 1, []⟩
    | some e =>
      match fuel with
      | 0 => ⟨some e, 1, []⟩
      | f + 1 =>
        let r := sendMessageWithRetryAux send (i + 1) (f + 1)
        ⟨r.err, r.attempts + 1, (i + 1) :: r.sleeps⟩

/-- `sendMessageWithRetry` from part_005 lines 124-143: up to `maxRetries`
attempts, `time.Sleep((i+1) * time.Second)` after each failed attempt `i`
except the last, returning `nil` on the first success and the last error
otherwise (note: the raw last error, as the source returns `err` unchanged). -/
def sendMessageWithRetry (send : Nat → Option E) (maxRetries : Nat) : RetryTrace E :=
  sendMessageWithRetryAux send 0 maxRetries

/-! ## Conversation Memory (src/handler/memory.go) -/

/-- `MemoryMessage` from memory.go lines 12-16. -/
structure MemoryMessage where
  Role : List Char
  Text : List Char
  Timestamp : Int
deriving DecidableEq

/-- `MemoryStore` from memory.go lines 19-24, with the map modelled as a total
function (a missing Go map key reads as the nil slice, i.e. `[]`).  The file
path and mutex are not part of the pure state. -/
structure MemoryStore where
  Data : List Char → List MemoryMessage
  MaxPerChat : Nat

/-- `MemoryStore.key` from memory.go lines 59-61. -/
def MemoryStore.key (chatJID assistantName : List Char) : List Char :=
  chatJID ++ '|' :: assistantName

/-- `MemoryStore.GetHistory` from memory.go lines 63-77: the whole history
when `limit <= 0` or the history is short enough, else the last `limit`
entries (`h[len(h)-limit:]`). -/
def MemoryStore.GetHistory (s : MemoryStore) (chatJID assistantName : List Char)
    (limit : Int) : List MemoryMessage :=
  let h := s.Data (MemoryStore.key chatJID assistantName)
  if limit ≤ 0 ∨ (h.length : Int) ≤ limit then h
  else h.drop (h.length - limit.toNat)

/-- `MemoryStore.Append` from memory.go lines 79-94: append the new message,
then if `MaxPerChat > 0` and the entry count exceeds it, drop the excess from
the front.  `now` stands for `time.Now().Unix()`. -/
def MemoryStore.Append (s : MemoryStore) (chatJID assistantName role text : List Char)
    (now : Int) : MemoryStore :=
  let k := MemoryStore.key chatJID assistantName
  let h1 := s.Data k ++ [⟨role, text, now⟩]
  let h2 := if 0 < s.MaxPerChat ∧ s.MaxPerChat < h1.length
    then h1.drop (h1.length - s.MaxPerChat) else h1
  ⟨fun k2 => if k2 = k then h2 else s.Data k2, s.MaxPerChat⟩

/-- The store `InitMemory` (memory.go lines 30-57) builds when no file exists:
empty data, per-chat cap 50. -/
def InitMemoryStore : MemoryStore := ⟨fun _ => [], 50⟩

/-- An append argument tuple (role, text, timestamp). -/
def MemEntry : Type := List Char × List Char × Int

/-- The `MemoryMessage` an `Append` call with these arguments stores. -/
def MemEntry.toMsg (e : MemEntry) : MemoryMessage := ⟨e.1, e.2.1, e.2.2⟩

/-- A sequence of `Append` calls for one (chat, assistant) key. -/
def appendAll (s : MemoryStore) (chatJID assistantName : List Char)
    (es : List MemEntry) : MemoryStore :=
  es.foldl (fun st e => st.Append chatJID assistantName e.1 e.2.1 e.2.2) s

/-- In-memory store plus the last serialized state `Save` (memory.go lines
97-109) wrote to the file. -/
structure MemWorld where
  store : MemoryStore
  disk : List Char → List MemoryMessage

/-- `MemoryStore.Save`: serialize the whole store to the file. -/
def MemWorld.save (w : MemWorld) : MemWorld := ⟨w.store, w.store.Data⟩

/-- `MemoryStore.AppendAndSave` from memory.go lines 111-115. -/
def MemWorld.appendAndSave (w : MemWorld) (chatJID assistantName role text : List Char)
    (now : Int) : MemWorld :=
  MemWorld.save ⟨w.store.Append chatJID assistantName role text now, w.disk⟩

/-! ## GitHub webhook payload (src/unnamed/part_002) and message formatting
(src/unnamed/part_003) -/

/-- `Repository` from part_002 lines 45-49. -/
structure Repository where
  name : List Char
  fullName : List Char
  htmlURL : List Char
deriving DecidableEq

/-- `User` from part_002 lines 51-56. -/
structure GHUser where
  login : List Char
  name : List Char
  email : List Char
  htmlURL : List Char
deriving DecidableEq

/-- `Commit` from part_002 lines 58-76 (author/committer omitted: unused by
the formatter). -/
structure Commit where
  id : List Char
  message : List Char
  url : List Char
  timestamp : List Char
  added : List (List Char)
  removed : List (List Char)
  modified : List (List Char)
deriving DecidableEq

/-- `Issue` from part_002 lines 78-83. -/
structure Issue where
  number : Int
  title : List Char
  htmlURL : List Char
  state : List Char
deriving DecidableEq

/-- `PullRequest` from part_002 lines 85-91. -/
structure PullRequest where
  number : Int
  title : List Char
  htmlURL : List Char
  state : List Char
  merged : Bool
deriving DecidableEq

/-- `GitHubWebhookPayload` from part_002 lines 33-43.  `issue` and
`pullRequest` are pointers in the source, so absence (`nil`) is `none`. -/
structure GitHubWebhookPayload where
  action : List Char
  repository : Repository
  sender : GHUser
  pusher : GHUser
  commits : List Commit
  ref : List Char
  issue : Option Issue
  pullRequest : Option PullRequest
deriving DecidableEq

/-- `getPusherName` from part_005 lines 64-76. -/
def getPusherName (payload : GitHubWebhookPayload) : List Char :=
  if payload.pusher.name ≠ [] then payload.pusher.name
  else if payload.pusher.login ≠ [] then payload.pusher.login
  else if payload.sender.login ≠ [] then payload.sender.login
  else str "Unknown"

/-- `getFileChangesSummary` from part_005 lines 78-97. -/
def getFileChangesSummary (commit : Commit) : List Char :=
  let changes :=
    (if commit.added.length > 0
      then [str "➕ " ++ showNat commit.added.length ++ str " added"] else [])
    ++ (if commit.modified.length > 0
      then [str "📝 " ++ showNat commit.modified.length ++ str " modified"] else [])
    ++ (if commit.removed.length > 0
      then [str "➖ " ++ showNat commit.removed.length ++ str " removed"] else [])
  if changes = [] then []
  else str " (" ++ (changes.intersperse (str ", ")).flatten ++ str ")"

/-- Go's `strings.Title` (ASCII model): uppercase each letter that does not
follow a letter. -/
def titleAux : Bool → List Char → List Char
  | _, [] => []
  | prevLetter, c :: rest =>
    (if prevLetter then c else c.toUpper) :: titleAux c.isAlpha rest

/-- Go's `strings.Title` (ASCII model). -/
def title (s : List Char) : List Char := titleAux false s

/-- The commit lines of the push branch of `formatGitHubMessage` (part_003
lines 34-51): render commits 0..2, at index 3 emit the "... and N more" line
and stop.  `commit.ID[:7]` panics when the ID has fewer than 7 characters;
the panic is modelled as `none`. -/
def commitLines (commitCount : Nat) : Nat → List Commit → Option (List Char)
  | _, [] => some []
  | i, commit :: rest =>
    if 3 ≤ i then
      some (str "_... and " ++ showNat (commitCount - 3) ++ str " more commits_\n")
    else if commit.id.length < 7 then none
    else
      let shortID := commit.id.take 7
      let fileChanges := getFileChangesSummary commit
      let commitMsg := if 80 < commit.message.length
        then commit.message.take 77 ++ str "..." else commit.message
      (commitLines commitCount (i + 1) rest).map (fun restLines =>
        str "🔹 `" ++ shortID ++ str "` " ++ commitMsg ++ fileChanges ++ str "\n" ++ restLines)

/-- `formatGitHubMessage` from part_003 lines 15-108.  `none` models a panic
(short commit ID slice, or nil `Issue`/`PullRequest` dereference). -/
def formatGitHubMessage (eventType : List Char) (payload : GitHubWebhookPayload) :
    Option (List Char) :=
  let repo := payload.repository.fullName
  if eventType = str "push" then
    if payload.commits.length = 0 then
      some (str "🔄 *Push Event*\n📁 *Repository:* " ++ repo
        ++ str "\n👤 *Pusher:* " ++ getPusherName payload
        ++ str "\n🌿 *Branch:* " ++ trimPrefixStr payload.ref (str "refs/heads/")
        ++ str "\n\n_No commits in this push_")
    else
      let commitCount := payload.commits.length
      let branch := trimPrefixStr payload.ref (str "refs/heads/")
      let header := str "🔄 *Push Event*\n📁 *Repository:* " ++ repo
        ++ str "\n👤 *Pusher:* " ++ getPusherName payload
        ++ str "\n🌿 *Branch:* " ++ branch
        ++ str "\n📝 *Commits:* " ++ showNat commitCount ++ str "\n\n"
      (commitLines commitCount 0 payload.commits).map (fun lines =>
        header ++ lines ++ str "\n🔗 *View Repository:* " ++ payload.repository.htmlURL)
  else if eventType = str "issues" then
    match payload.issue with
    | none => none
    | some issue =>
      let actionEmoji :=
        if payload.action = str "opened" then str "🆕"
        else if payload.action = str "closed" then str "✅"
        else if payload.action = str "reopened" then str "🔄"
        else str "🐛"
      some (actionEmoji ++ str " *Issue " ++ title payload.action
        ++ str "*\n📁 *Repository:* " ++ repo
        ++ str "\n👤 *User:* " ++ payload.sender.login
        ++ str "\n📋 *Issue #" ++ showInt issue.number ++ str ":* " ++ issue.title
        ++ str "\n🔗 *Link:* " ++ issue.htmlURL)
  else if eventType = str "pull_request" then
    match payload.pullRequest with
    | none => none
    | some pr =>
      let ea : List Char × List Char :=
        if payload.action = str "opened" then (str "🆕", payload.action)
        else if payload.action = str "closed" then
          if pr.merged then (str "✅", str "merged") else (str "❌", payload.action)
        else if payload.action = str "reopened" then (str "🔄", payload.action)
        else (str "🔀", payload.action)
      some (ea.1 ++ str " *Pull Request " ++ title ea.2
        ++ str "*\n📁 *Repository:* " ++ repo
        ++ str "\n👤 *User:* " ++ payload.sender.login
        ++ str "\n📋 *PR #" ++ showInt pr.number ++ str ":* " ++ pr.title
        ++ str "\n🔗 *Link:* " ++ pr.htmlURL)
  else if eventType = str "release" then
    some (str "🚀 *Release " ++ title payload.action
      ++ str "*\n📁 *Repository:* " ++ repo
      ++ str "\n👤 *User:* " ++ payload.sender.login
      ++ str "\n🔗 *Link:* " ++ payload.repository.htmlURL)
  else
    some (str "📢 *GitHub Event: " ++ title eventType
      ++ str "*\n📁 *Repository:* " ++ repo
      ++ str "\n👤 *User:* " ++ payload.sender.login
      ++ str "\n🔗 *Link:* " ++ payload.repository.htmlURL)

/-! ## Webhook Relay (src/unnamed/part_003 lines 111-252) -/

/-- `getNotificationTargets` from part_005 lines 29-36, with the
`NOTIFICATION_TARGETS` environment value passed explicitly. -/
def getNotificationTargets (targets : List Char) : List (List Char) :=
  if targets = [] then []
  else splitChar ',' targets

/-- One element of the `results` array `handleGitHubWebhook` builds per
target: the display form, the target type (absent when JID creation failed
and the target was skipped), and the success flag. -/
structure SendResult where
  target : List Char
  targetType : Option (List Char)
  success : Bool
deriving DecidableEq

/-- The observable outcome of `handleGitHubWebhook`: HTTP status, the main
status/error string of the JSON body, the reported fields, the per-target
results, and the JIDs actually handed to `sendMessageWithRetry`. -/
structure WebhookResponse where
  status : Nat
  bodyStatus : List Char
  event : Option (List Char)
  targetsSent : Nat
  totalTargets : Nat
  customJid : Option Bool
  targetSource : Option (List Char)
  results : List SendResult
  sendCalls : List JID
deriving DecidableEq

/-- The per-target loop of `handleGitHubWebhook` (part_003 lines 191-234):
resolve each target, skip empty JIDs with an "Invalid JID format" result,
otherwise call `sendMessageWithRetry(ctx, jid, message, 2)` — whose outcome
the parameter `sendOutcome` supplies (`none` = delivered).  Returns the
results array and the JIDs sent to. -/
def processTargets (parseGroupJID : List Char → Option (List Char))
    (sendOutcome : JID → Option Unit) :
    List (List Char) → List SendResult × List JID
  | [] => ([], [])
  | target :: rest =>
    let tail := processTargets parseGroupJID sendOutcome rest
    match createTargetJID parseGroupJID target with
    | .empty => (⟨target, none, false⟩ :: tail.1, tail.2)
    | jid =>
      let targetType := if isGroupJID target then str "group" else str "individual"
      let display := if isGroupJID target then target
        else normalizePhoneNumber (trim target)
      let ok := sendOutcome jid
      (⟨display, some targetType, ok = none⟩ :: tail.1, jid :: tail.2)

/-- `handleGitHubWebhook` from part_003 lines 111-252 as a function of the
request and environment: `connected` is `WaClient.IsConnected()`, `eventType`
the `X-GitHub-Event` header (`[]` when absent), `payload` the parsed body
(`none` = JSON error), `customJID` the `jid` query parameter (`[]` when
absent), `env` the `NOTIFICATION_TARGETS` value.  The body-read error branch
is not modelled.  `none` models a panic escaping the handler (possible only
through `formatGitHubMessage`). -/
def handleGitHubWebhook (connected : Bool) (eventType : List Char)
    (payload : Option GitHubWebhookPayload) (customJID : List Char)
    (env : List Char) (parseGroupJID : List Char → Option (List Char))
    (sendOutcome : JID → Option Unit) : Option WebhookResponse :=
  if eventType = [] then
    some ⟨400, str "Missing X-GitHub-Event header", none, 0, 0, none, none, [], []⟩
  else
    match payload with
    | none => some ⟨400, str "Failed to parse JSON payload", none, 0, 0, none, none, [], []⟩
    | some p =>
      if connected = false then
        some ⟨503, str "WhatsApp client not connected", none, 0, 0, none, none, [], []⟩
      else
        let proceed : List (List Char) → Option WebhookResponse := fun targets =>
          match formatGitHubMessage eventType p with
          | none => none
          | some _message =>
            let rc := processTargets parseGroupJID sendOutcome targets
            some ⟨200, str "Webhook processed", some eventType,
              (rc.1.filter (fun r => r.success)).length, targets.length,
              some (decide (customJID ≠ [])),
              some (if customJID ≠ [] then str "query_parameter" else str "environment"),
              rc.1, rc.2⟩
        if customJID ≠ [] then proceed [customJID]
        else if getNotificationTargets env = [] then
          some ⟨200, str "Webhook received but no notification targets configured",
            some eventType, 0, 0, none, none, [], []⟩
        else proceed (getNotificationTargets env)

/-! ## AI reply with memory (src/handler/gemini.go lines 266-299) -/

/-- The history text `GetGeminiResponseWithMemory` builds from the last 6
stored turns. -/
def historyPromptText (w : MemWorld) (chatJID assistantName : List Char) : List Char :=
  (w.store.GetHistory chatJID assistantName 6).foldl (fun acc m =>
    if m.Role = str "user" then acc ++ str "Pengguna: " ++ m.Text ++ str "\n"
    else if m.Role = str "assistant" then acc ++ assistantName ++ str ": " ++ m.Text ++ str "\n"
    else acc) []

/-- The prompt `GetGeminiResponseWithMemory` hands to the generation call. -/
def combinedPrompt (w : MemWorld) (chatJID assistantName userMessage : List Char) :
    List Char :=
  let historyText := historyPromptText w chatJID assistantName
  if trim historyText ≠ [] then
    str "Riwayat percakapan singkat (konteks):\n" ++ historyText
      ++ str "\nPertanyaan baru pengguna: " ++ userMessage
  else userMessage

/-- `GetGeminiResponseWithMemory` from gemini.go lines 266-299.  `gen` is the
external `GenerateResponseWithName` call (`none` = error); `t1`, `t2` the
Unix times of the two appends.  On generation error the Go code returns the
error before touching the store; on success it appends the user turn and the
assistant turn, persisting after each. -/
def GetGeminiResponseWithMemory (gen : List Char → Option (List Char)) (w : MemWorld)
    (chatJID assistantName userMessage : List Char) (t1 t2 : Int) :
    Option (List Char) × MemWorld :=
  match gen (combinedPrompt w chatJID assistantName userMessage) with
  | none => (none, w)
  | some reply =>
    let w1 := w.appendAndSave chatJID assistantName (str "user") userMessage t1
    let w2 := w1.appendAndSave chatJID assistantName (str "assistant") reply t2
    (some reply, w2)

/-! ## Concrete fixtures used by witnesses and counterexamples -/

/-- A transport stub that fails the first two attempts and succeeds on the
third. -/
def sendFailTwice : Nat → Option Unit := fun k => if k < 2 then some () else none

/-- A transport stub that always fails with error code 7. -/
def sendAlwaysFail : Nat → Option Nat := fun _ => some 7

/-- A minimal benign webhook payload (a push with no commits). -/
def samplePayload : GitHubWebhookPayload :=
  ⟨[], ⟨str "r", str "o/r", str "http://x"⟩, ⟨str "s", [], [], []⟩,
   ⟨[], str "p", [], []⟩, [], str "refs/heads/main", none, none⟩

/-- A push payload whose only commit has a 3-character ID: `commit.ID[:7]`
panics on it. -/
def shortCommitPayload : GitHubWebhookPayload :=
  ⟨[], ⟨str "r", str "o/r", str "http://x"⟩, ⟨str "s", [], [], []⟩,
   ⟨[], str "p", [], []⟩, [⟨str "abc", str "fix", [], [], [], [], []⟩],
   str "refs/heads/main", none, none⟩

/-- An `issues` payload without an `issue` object: the handler dereferences
the nil pointer. -/
def noIssuePayload : GitHubWebhookPayload :=
  ⟨str "opened", ⟨str "r", str "o/r", str "http://x"⟩, ⟨str "s", [], [], []⟩,
   ⟨[], str "p", [], []⟩, [], [], none, none⟩

/-- A fresh memory world: empty store with the default cap, nothing on disk. -/
def freshWorld : MemWorld := ⟨InitMemoryStore, fun _ => []⟩

/-- Three append argument tuples, one more than a cap of 2 can hold. -/
def threeEntries : List MemEntry :=
  [(str "user", str "a", 0), (str "assistant", str "b", 1), (str "user", str "c", 2)]

/-- An empty store with per-chat cap 2. -/
def capTwoStore : MemoryStore := ⟨fun _ => [], 2⟩

/-- A store holding one message under the key `chat|bot`. -/
def oneMsgStore : MemoryStore :=
  InitMemoryStore.Append (str "chat") (str "bot") (str "user") (str "hi") 0

/-! ## Delivery Engine lemmas -/

theorem sendMessageWithRetryAux_succeeds {E : Type} (send : Nat → Option E) :
    ∀ m i fuel : Nat, m < fuel →
      (∀ k, k < m → (send (i + k)).isSome = true) →
      send (i + m) = none →
      sendMessageWithRetryAux send i fuel = ⟨none, m + 1, List.range' (i + 1) m⟩ := by
  intro m
  induction m with
  | zero =>
    intro i fuel hfuel hfail hsucc
    match fuel, hfuel with
    | f + 1, _ =>
      have h0 : send i = none := by simpa using hsucc
      simp [sendMessageWithRetryAux, h0, List.range']
  | succ m ih =>
    intro i fuel hfuel hfail hsucc
    match fuel, hfuel with
    | f + 1, _ =>
      have h0 : (send i).isSome = true := by
        simpa using hfail 0 (Nat.succ_pos m)
      obtain ⟨e, he⟩ := Option.isSome_iff_exists.mp h0
      have hm : m < f := by omega
      match f, hm with
      | f' + 1, _ =>
        have ihr := ih (i + 1) (f' + 1) (by omega)
          (fun k hk => by
            have hx := hfail (k + 1) (by omega)
            have : i + (k + 1) = i + 1 + k := by omega
            rwa [this] at hx)
          (by
            have : i + (m + 1) = i + 1 + m := by omega
            rwa [this] at hsucc)
        simp [sendMessageWithRetryAux, he, ihr, List.range']

theorem sendMessageWithRetryAux_allFail {E : Type} (send : Nat → Option E)
    (hfail : ∀ k, (send k).isSome = true) :
    ∀ fuel i : Nat, 1 ≤ fuel →
      sendMessageWithRetryAux send i fuel
        = ⟨send (i + (fuel - 1)), fuel, List.range' (i + 1) (fuel - 1)⟩ := by
  intro fuel
  induction fuel with
  | zero => intro i h; omega
  | succ f ih =>
    intro i _
    obtain ⟨e, he⟩ := Option.isSome_iff_exists.mp (hfail i)
    match f with
    | 0 => simp [sendMessageWithRetryAux, he, List.range']
    | f' + 1 =>
      have ihr := ih (i + 1) (by omega)
      have harith : i + 1 + f' = i + (f' + 1) := by omega
      simp only [sendMessageWithRetryAux, he, ihr]
      simp [harith, List.range']

/-- C1: `sendMessageWithRetry` against a transport failing the first `n-1`
attempts and succeeding on the `n`-th (`1 ≤ n ≤ maxRetries`) returns success
after exactly `n` attempts with sleeps `1, 2, …, n-1` before the retries;
against a transport that always fails it stops after exactly `maxRetries`
attempts, returns failure, and slept `1, …, maxRetries-1`. -/
theorem sendMessageWithRetry_spec :
    (∀ (E : Type) (send : Nat → Option E) (n maxRetries : Nat),
        1 ≤ n → n ≤ maxRetries →
        (∀ k, k < n - 1 → (send k).isSome = true) →
        send (n - 1) = none →
        sendMessageWithRetry send maxRetries = ⟨none, n, List.range' 1 (n - 1)⟩)
    ∧ (∀ (E : Type) (send : Nat → Option E) (maxRetries : Nat),
        1 ≤ maxRetries →
        (∀ k, (send k).isSome = true) →
        (sendMessageWithRetry send maxRetries).err.isSome = true
          ∧ (sendMessageWithRetry send maxRetries).attempts = maxRetries
          ∧ (sendMessageWithRetry send maxRetries).sleeps
              = List.range' 1 (maxRetries - 1)) := by
  constructor
  · intro E send n maxRetries hn hnm hfail hsucc
    have h := sendMessageWithRetryAux_succeeds send (n - 1) 0 maxRetries (by omega)
      (fun k hk => by simpa using hfail k hk) (by simpa using hsucc)
    have hn1 : n - 1 + 1 = n := by omega
    rw [sendMessageWithRetry, h, hn1]
  · intro E send maxRetries hmr hfail
    have h := sendMessageWithRetryAux_allFail send hfail maxRetries 0 hmr
    rw [sendMessageWithRetry, h]
    exact ⟨by simpa using hfail (0 + (maxRetries - 1)), rfl, rfl⟩

/-- C1 witness: with a stub failing attempts 0 and 1 and succeeding on
attempt 2 (`n = 3 ≤ maxRetries = 5`), delivery succeeds after exactly 3
attempts with sleeps `[1, 2]`; an always-failing stub under `maxRetries = 4`
makes exactly 4 attempts. -/
theorem sendMessageWithRetry_spec_witness :
    sendMessageWithRetry sendFailTwice 5 = ⟨none, 3, [1, 2]⟩
      ∧ (sendMessageWithRetry sendAlwaysFail 4).attempts = 4 := by
  constructor
  · have h := sendMessageWithRetry_spec.1 Unit sendFailTwice 3 5 (by decide) (by decide)
      (fun k hk => by interval_cases k <;> decide) (by decide)
    simpa using h
  · exact (sendMessageWithRetry_spec.2 Nat sendAlwaysFail 4 (by decide)
      (fun k => rfl)).2.1

/-- C8 counterexample: the claim says the error surfaced after exhaustion
carries the attempt count; but runs of 1 and of 2 attempts over the same
always-failing transport surface the very same error value (`some 7`), so
the reported error does not carry the attempt count. -/
theorem retry_error_not_tagged :
    (sendMessageWithRetry sendAlwaysFail 1).err = some 7
      ∧ (sendMessageWithRetry sendAlwaysFail 2).err = some 7
      ∧ (sendMessageWithRetry sendAlwaysFail 1).attempts
          ≠ (sendMessageWithRetry sendAlwaysFail 2).attempts := by
  decide

/-- C8 amended: exhausting all attempts surfaces the *raw* last underlying
transport error, unchanged, after exactly `maxRetries` attempts; the attempt
count is logged per attempt but not attached to the returned error. -/
theorem retry_surfaces_last_raw_error :
    ∀ (E : Type) (send : Nat → Option E) (maxRetries : Nat),
      1 ≤ maxRetries →
      (∀ k, (send k).isSome = true) →
      (sendMessageWithRetry send maxRetries).err = send (maxRetries - 1)
        ∧ (sendMessageWithRetry send maxRetries).attempts = maxRetries := by
  intro E send maxRetries hmr hfail
  have h := sendMessageWithRetryAux_allFail send hfail maxRetries 0 hmr
  rw [sendMessageWithRetry, h]
  exact ⟨by simp, rfl⟩

/-- C8 amended witness: an always-failing transport under 3 attempts returns
its own error `7` (the raw last transport error) after exactly 3 attempts. -/
theorem retry_surfaces_last_raw_error_witness :
    (sendMessageWithRetry sendAlwaysFail 3).err = sendAlwaysFail 2
      ∧ (sendMessageWithRetry sendAlwaysFail 3).attempts = 3 :=
  retry_surfaces_last_raw_error Nat sendAlwaysFail 3 (by decide) (fun k => rfl)

/-! ## Conversation Memory lemmas -/

theorem getLast?_drop_of_lt {α : Type} {l : List α} {n : Nat} (h : n < l.length) :
    (l.drop n).getLast? = l.getLast? := by
  rw [List.getLast?_eq_getElem?, List.getLast?_eq_getElem?, List.getElem?_drop,
    List.length_drop]
  have h2 : n + (l.length - n - 1) = l.length - 1 := by omega
  rw [h2]

theorem rtake_append_left {α : Type} (n : Nat) (xs ys : List α) :
    (xs.rtake n ++ ys).rtake n = (xs ++ ys).rtake n := by
  rw [List.rtake_eq_reverse_take_reverse, List.rtake_eq_reverse_take_reverse,
    List.rtake_eq_reverse_take_reverse]
  congr 1
  rw [List.reverse_append, List.reverse_append, List.reverse_reverse]
  rw [List.take_append_eq_append_take, List.take_append_eq_append_take]
  congr 1
  rw [List.take_take]
  congr 1
  omega

theorem Append_Data_key (s : MemoryStore) (c a role text : List Char) (t : Int)
    (hcap : 0 < s.MaxPerChat) :
    (s.Append c a role text t).Data (MemoryStore.key c a)
      = (s.Data (MemoryStore.key c a)
          ++ ([⟨role, text, t⟩] : List MemoryMessage)).rtake s.MaxPerChat := by
  simp only [MemoryStore.Append, if_true]
  split
  · rw [List.rtake]
  · next hno =>
    have h0 : (s.Data (MemoryStore.key c a)
        ++ ([⟨role, text, t⟩] : List MemoryMessage)).length - s.MaxPerChat = 0 := by
      simp only [List.length_append, List.length_cons, List.length_nil] at *
      omega
    rw [List.rtake, h0, List.drop_zero]

theorem appendAll_Data_key (c a : List Char) :
    ∀ (es : List MemEntry) (s : MemoryStore), 0 < s.MaxPerChat →
      (s.Data (MemoryStore.key c a)).length ≤ s.MaxPerChat →
      (appendAll s c a es).Data (MemoryStore.key c a)
        = (s.Data (MemoryStore.key c a) ++ es.map MemEntry.toMsg).rtake s.MaxPerChat := by
  intro es
  induction es with
  | nil =>
    intro s hcap hlen
    have h0 : (s.Data (MemoryStore.key c a)).length - s.MaxPerChat = 0 := by omega
    simp [appendAll, List.rtake, h0]
  | cons e es ih =>
    intro s hcap hlen
    have hstep := Append_Data_key s c a e.1 e.2.1 e.2.2 hcap
    have hlen2 : ((s.Append c a e.1 e.2.1 e.2.2).Data (MemoryStore.key c a)).length
        ≤ s.MaxPerChat := by
      rw [hstep, List.rtake, List.length_drop]
      omega
    have hrec := ih (s.Append c a e.1 e.2.1 e.2.2) hcap hlen2
    have hfold : appendAll s c a (e :: es)
        = appendAll (s.Append c a e.1 e.2.1 e.2.2) c a es := rfl
    have hmax : (s.Append c a e.1 e.2.1 e.2.2).MaxPerChat = s.MaxPerChat := rfl
    rw [hmax] at hrec
    rw [hfold, hrec, hstep, rtake_append_left, List.append_assoc]
    rfl

theorem Append_GetHistory_getLast (s : MemoryStore) (c a role text : List Char)
    (t limit : Int) :
    ((s.Append c a role text t).GetHistory c a limit).getLast?
      = some ⟨role, text, t⟩ := by
  have hlast : ((s.Append c a role text t).Data (MemoryStore.key c a)).getLast?
      = some ⟨role, text, t⟩ := by
    simp only [MemoryStore.Append, if_true]
    split
    · next hyes =>
      rw [getLast?_drop_of_lt, List.getLast?_concat]
      simp only [List.length_append, List.length_cons, List.length_nil]
      omega
    · exact List.getLast?_concat _
  simp only [MemoryStore.GetHistory]
  split
  · exact hlast
  · next hno =>
    rw [getLast?_drop_of_lt, hlast]
    have h1 : ((s.Append c a role text t).Data (MemoryStore.key c a)).length ≠ 0 := by
      intro h0
      apply hno
      left
      omega
    omega

/-- C3: from an empty store with a positive cap, (i) no sequence of appends
ever leaves more than `cap` entries under the key; (ii) an `Append`
immediately followed by `GetHistory` (any limit) returns the newly appended
entry as the last element; (iii) appending `cap + k` entries leaves exactly
the `cap` newest — the `k` oldest are evicted from the front (FIFO). -/
theorem memory_cap_fifo :
    (∀ (cap : Nat) (c a : List Char) (es : List MemEntry), 0 < cap →
        ((appendAll ⟨fun _ => [], cap⟩ c a es).Data (MemoryStore.key c a)).length ≤ cap)
    ∧ (∀ (s : MemoryStore) (c a role text : List Char) (t limit : Int),
        ((s.Append c a role text t).GetHistory c a limit).getLast?
          = some ⟨role, text, t⟩)
    ∧ (∀ (cap k : Nat) (c a : List Char) (es : List MemEntry), 0 < cap →
        es.length = cap + k →
        (appendAll ⟨fun _ => [], cap⟩ c a es).Data (MemoryStore.key c a)
          = (es.map MemEntry.toMsg).drop k) := by
  refine ⟨?_, Append_GetHistory_getLast, ?_⟩
  · intro cap c a es hcap
    rw [appendAll_Data_key c a es ⟨fun _ => [], cap⟩ hcap (by simp)]
    simp only [List.rtake, List.length_drop]
    omega
  · intro cap k c a es hcap hlen
    rw [appendAll_Data_key c a es ⟨fun _ => [], cap⟩ hcap (by simp)]
    show ((es.map MemEntry.toMsg).rtake cap : List MemoryMessage) = _
    rw [List.rtake, List.length_map, hlen]
    congr 1
    omega

/-- C3 witness: with cap 2, appending 3 entries to an empty store leaves the
2 newest (the oldest is evicted); appending to the default store and reading
back returns the new entry last; the cap is never exceeded. -/
theorem memory_cap_fifo_witness :
    ((appendAll capTwoStore (str "c") (str "b") threeEntries).Data
        (MemoryStore.key (str "c") (str "b"))).length ≤ 2
      ∧ ((InitMemoryStore.Append (str "chat") (str "bot") (str "user") (str "hi") 5).GetHistory
          (str "chat") (str "bot") 6).getLast? = some ⟨str "user", str "hi", 5⟩
      ∧ (appendAll capTwoStore (str "c") (str "b") threeEntries).Data
          (MemoryStore.key (str "c") (str "b"))
        = (threeEntries.map MemEntry.toMsg).drop 1 :=
  ⟨memory_cap_fifo.1 2 (str "c") (str "b") threeEntries (by decide),
   memory_cap_fifo.2.1 InitMemoryStore (str "chat") (str "bot") (str "user") (str "hi") 5 6,
   memory_cap_fifo.2.2 2 1 (str "c") (str "b") threeEntries (by decide) (by decide)⟩

/-- C5 counterexample: the claim quantifies over *every* limit, but with
`limit = 0` the code's `limit <= 0` branch returns the entire history — here
1 entry, which is more than the claimed `≤ limit = 0` entries. -/
theorem GetHistory_limit_zero_counterexample :
    ((oneMsgStore.GetHistory (str "chat") (str "bot") 0).length = 1)
      ∧ ¬((oneMsgStore.GetHistory (str "chat") (str "bot") 0).length ≤ 0) := by
  decide

/-- C5 amended: for every positive limit, `GetHistory` returns the
`limit` most-recent entries for the key — a suffix of the stored history,
oldest first, of length `min (stored) limit`; with `limit ≤ 0` the code
deliberately returns the entire history.  The store itself is not touched
(`GetHistory` reads `s.Data` only; the Go code copies the slice it returns). -/
theorem GetHistory_spec (s : MemoryStore) (c a : List Char) (limit : Int)
    (hl : 1 ≤ limit) :
    (s.GetHistory c a limit).length
        = min (s.Data (MemoryStore.key c a)).length limit.toNat
      ∧ s.GetHistory c a limit <:+ s.Data (MemoryStore.key c a) := by
  simp only [MemoryStore.GetHistory]
  split
  · next h =>
    rcases h with h | h
    · omega
    · have hle : (s.Data (MemoryStore.key c a)).length ≤ limit.toNat := by omega
      exact ⟨(Nat.min_eq_left hle).symm, List.suffix_refl _⟩
  · next h =>
    have h2 : ¬((s.Data (MemoryStore.key c a)).length : Int) ≤ limit := fun hx => h (.inr hx)
    have hge : limit.toNat ≤ (s.Data (MemoryStore.key c a)).length := by omega
    constructor
    · rw [List.length_drop, Nat.min_eq_right hge]
      omega
    · exact List.drop_suffix _ _

/-- C5 amended witness: one stored entry, limit 5: the whole (1-entry)
history comes back as a suffix of the stored history. -/
theorem GetHistory_spec_witness :
    (oneMsgStore.GetHistory (str "chat") (str "bot") 5).length
        = min (oneMsgStore.Data (MemoryStore.key (str "chat") (str "bot"))).length
            (Int.toNat 5)
      ∧ oneMsgStore.GetHistory (str "chat") (str "bot") 5
          <:+ oneMsgStore.Data (MemoryStore.key (str "chat") (str "bot")) :=
  GetHistory_spec oneMsgStore (str "chat") (str "bot") 5 (by decide)

/-! ## Target Resolver theorems -/

/-- C2 counterexample: `"0712345"` starts with the trunk prefix `"0"` after
digit-stripping, but resolution yields identifier `"620712345"` — the
country code is prepended while the leading trunk `0` is *not* removed
(removal would give `"62712345"`).  Only the `"08"` prefix is rewritten. -/
theorem trunk_zero_not_always_replaced :
    createTargetJID (fun _ => none) (str "0712345") = JID.individual (str "620712345")
      ∧ createTargetJID (fun _ => none) (str "0712345")
          ≠ JID.individual (str "62712345") := by
  decide

/-- C2 amended: for a non-group input whose digit-stripped form starts with
the mobile trunk prefix `"08"`, resolution yields an individual target with
the `0` removed and the country code prepended (`08…` ↦ `628…`); for one
starting with `"0"` not followed by `"8"`, the country code is prepended and
the `0` is kept (`0c…` ↦ `620c…`). -/
theorem normalize_trunk_rewrite (t r : List Char)
    (hg : isGroupJID (trim t) = false) :
    (stripNonDigits (trim t) = '0' :: '8' :: r →
      ∀ parse, createTargetJID parse t = JID.individual ('6' :: '2' :: '8' :: r))
    ∧ (∀ c : Char, stripNonDigits (trim t) = '0' :: c :: r → c ≠ '8' →
      ∀ parse, createTargetJID parse t = JID.individual ('6' :: '2' :: '0' :: c :: r)) := by
  constructor
  · intro hdig parse
    simp only [createTargetJID, hg, Bool.false_eq_true, if_false]
    congr 1
    simp only [normalizePhoneNumber, hdig]
    simp [startsWith, str]
  · intro c hdig hc parse
    simp only [createTargetJID, hg, Bool.false_eq_true, if_false]
    congr 1
    simp only [normalizePhoneNumber, hdig]
    simp [startsWith, str, hc]

/-- C2 amended witness: `"081234567890"` resolves to the individual target
`"6281234567890"`, and `"0712345"` to `"620712345"`. -/
theorem normalize_trunk_rewrite_witness :
    createTargetJID (fun _ => none) (str "081234567890")
        = JID.individual (str "6281234567890")
      ∧ createTargetJID (fun _ => none) (str "0712345")
          = JID.individual (str "620712345") :=
  ⟨(normalize_trunk_rewrite (str "081234567890") (str "1234567890") (by decide)).1
      (by decide) (fun _ => none),
   (normalize_trunk_rewrite (str "0712345") (str "12345") (by decide)).2
      '7' (by decide) (by decide) (fun _ => none)⟩

/-! ## Command Classifier lemmas -/

theorem charBeq_eq_decide (a b : Char) : (a == b) = decide (a = b) := by
  by_cases h : a = b <;> simp [h]

theorem swapPfx_swapPfx (c : Char) : swapPfx (swapPfx c) = c := by
  by_cases h1 : c = '!'
  · subst h1; decide
  · by_cases h2 : c = '/'
    · subst h2; decide
    · simp [swapPfx, h1, h2]

theorem toLower_ne_pfx (c : Char) (h1 : c ≠ '!') (h2 : c ≠ '/') :
    c.toLower ≠ '!' ∧ c.toLower ≠ '/' := by
  show (let n := c.toNat; if n ≥ 65 ∧ n ≤ 90 then Char.ofNat (n + 32) else c) ≠ '!'
    ∧ (let n := c.toNat; if n ≥ 65 ∧ n ≤ 90 then Char.ofNat (n + 32) else c) ≠ '/'
  simp only []
  split
  · next h =>
    obtain ⟨h65, h90⟩ := h
    generalize c.toNat = n at h65 h90 ⊢
    interval_cases n <;> exact ⟨by decide, by decide⟩
  · exact ⟨h1, h2⟩

theorem toLower_swapPfx (c : Char) : (swapPfx c).toLower = swapPfx c.toLower := by
  by_cases h1 : c = '!'
  · subst h1; decide
  · by_cases h2 : c = '/'
    · subst h2; decide
    · obtain ⟨hb, hs⟩ := toLower_ne_pfx c h1 h2
      simp [swapPfx, h1, h2, hb, hs]

theorem lower_map_swapPfx (s : List Char) :
    lower (s.map swapPfx) = (lower s).map swapPfx := by
  simp only [lower, List.map_map]
  congr 1
  funext c
  exact toLower_swapPfx c

theorem map_swapPfx_map_swapPfx (l : List Char) : (l.map swapPfx).map swapPfx = l := by
  rw [List.map_map]
  have h : swapPfx ∘ swapPfx = id := funext swapPfx_swapPfx
  rw [h, List.map_id]

theorem beq_swapPfx (a b : Char) : (swapPfx a == swapPfx b) = (a == b) := by
  rw [charBeq_eq_decide, charBeq_eq_decide]
  rcases decide_eq_decide.mpr (show swapPfx a = swapPfx b ↔ a = b from
    ⟨fun h => by rw [← swapPfx_swapPfx a, h, swapPfx_swapPfx],
     fun h => by rw [h]⟩) with h
  exact h

theorem startsWith_map_swapPfx (s p : List Char) :
    startsWith (s.map swapPfx) (p.map swapPfx) = startsWith s p := by
  induction s generalizing p with
  | nil => cases p <;> simp [startsWith]
  | cons c s ih =>
    cases p with
    | nil => simp [startsWith]
    | cons q ps => simp [startsWith, beq_swapPfx, ih]

theorem hasCommandPrefix_map_swapPfx (m pat : List Char) :
    hasCommandPrefix (m.map swapPfx) pat = hasCommandPrefix m (pat.map swapPfx) := by
  unfold hasCommandPrefix
  rw [lower_map_swapPfx, lower_map_swapPfx]
  conv_lhs => rw [show lower pat = ((lower pat).map swapPfx).map swapPfx from
    (map_swapPfx_map_swapPfx _).symm]
  rw [startsWith_map_swapPfx]

theorem cond_swap (m k : List Char) (hk : k.map swapPfx = k) :
    (hasCommandPrefix (m.map swapPfx) ('/' :: k)
        || hasCommandPrefix (m.map swapPfx) ('!' :: k))
      = (hasCommandPrefix m ('/' :: k) || hasCommandPrefix m ('!' :: k)) := by
  rw [hasCommandPrefix_map_swapPfx, hasCommandPrefix_map_swapPfx]
  rw [show ('/' :: k).map swapPfx = '!' :: k from by simp [swapPfx, hk]]
  rw [show ('!' :: k).map swapPfx = '/' :: k from by simp [swapPfx, hk]]
  exact Bool.or_comm _ _

theorem find?_cond_swap (m : List Char) :
    ∀ tbl : List (List Char × Command), (∀ kc ∈ tbl, kc.1.map swapPfx = kc.1) →
      tbl.find? (fun kc => hasCommandPrefix (m.map swapPfx) ('/' :: kc.1)
          || hasCommandPrefix (m.map swapPfx) ('!' :: kc.1))
        = tbl.find? (fun kc => hasCommandPrefix m ('/' :: kc.1)
            || hasCommandPrefix m ('!' :: kc.1)) := by
  intro tbl
  induction tbl with
  | nil => intro _; rfl
  | cons kc tbl ih =>
    intro h
    simp only [List.find?]
    rw [cond_swap m kc.1 (h kc (List.mem_cons_self _ _))]
    cases hc : (hasCommandPrefix m ('/' :: kc.1) || hasCommandPrefix m ('!' :: kc.1))
    · exact ih (fun x hx => h x (List.mem_cons_of_mem _ hx))
    · rfl

/-- C4: classification by the dispatch chain is invariant under case
transformation of the body (bodies with the same lowercasing classify
identically) and under swapping the two prefix characters `!` and `/`
throughout the body. -/
theorem classify_invariance :
    (∀ b1 b2 : List Char, lower b1 = lower b2 → classify b1 = classify b2)
    ∧ (∀ b : List Char, classify (b.map swapPfx) = classify b) := by
  constructor
  · intro b1 b2 h
    have hp : ∀ pat, hasCommandPrefix b1 pat = hasCommandPrefix b2 pat := by
      intro pat
      unfold hasCommandPrefix
      rw [h]
    unfold classify
    simp only [hp]
  · intro b
    unfold classify
    rw [find?_cond_swap b commandTable (by decide)]

/-- C4 witness: `"!PING"`, `"!ping"`, `"/ping"` and `"/PiNg"` all classify to
the same command. -/
theorem classify_invariance_witness :
    classify (str "!PING") = classify (str "!ping")
      ∧ classify (str "/ping") = classify (str "!ping")
      ∧ classify (str "/PiNg") = classify (str "/ping")
      ∧ classify (str "!ping") = .ping := by
  refine ⟨classify_invariance.1 _ _ (by decide), ?_,
    classify_invariance.1 _ _ (by decide), by decide⟩
  have h := classify_invariance.2 (str "!ping")
  rwa [show (str "!ping").map swapPfx = str "/ping" from by decide] at h

/-! ## Dispatch Loop and mute list -/

/-- C7: the `NO_RESPONSE` mute configuration marks the chat as to-ignore, yet
`EventHandler` dispatches its `"!ping"` to the ping handler all the same —
the dispatch chain never consults `shouldIgnoreGroup` (it has no caller). -/
theorem muted_chat_still_dispatches :
    shouldIgnoreGroup (str "1203@g.us") (str "1203@g.us") = true
      ∧ eventHandlerAction (str "!ping") = .dispatch .ping
      ∧ eventHandlerAction (str "!ping") ≠ .drop := by
  decide

/-! ## Webhook formatter and relay theorems -/

/-- C9: `formatGitHubMessage` is not total.  A push payload with a
3-character commit ID makes `commit.ID[:7]` panic (slice out of range), and
an `issues` payload without an issue object panics on the nil dereference;
unknown event types do fall through to the generic summary. -/
theorem formatGitHubMessage_panics :
    formatGitHubMessage (str "push") shortCommitPayload = none
      ∧ formatGitHubMessage (str "issues") noIssuePayload = none
      ∧ (formatGitHubMessage (str "deploy") shortCommitPayload).isSome = true := by
  decide

theorem processTargets_singleton (parse : List Char → Option (List Char))
    (send : JID → Option Unit) (t : List Char) :
    (processTargets parse send [t]).1.length = 1
      ∧ ∀ j ∈ (processTargets parse send [t]).2, j = createTargetJID parse t := by
  cases h : createTargetJID parse t with
  | empty =>
    refine ⟨by simp [processTargets, h], ?_⟩
    intro j hj
    simp [processTargets, h] at hj
  | group g =>
    refine ⟨by simp [processTargets, h], ?_⟩
    intro j hj
    simp [processTargets, h] at hj
    simp [hj]
  | individual u =>
    refine ⟨by simp [processTargets, h], ?_⟩
    intro j hj
    simp [processTargets, h] at hj
    simp [hj]

/-- C6: while connected, (i) the handler's output never depends on the
configured target list once a `jid` override is present; (ii) with an
override, the response reports `target_source = "query_parameter"`, exactly
one target is processed, and every delivery goes to the override's JID;
(iii) with no override and an empty configured list, the handler returns the
HTTP 200 "no targets configured" response and performs no delivery. -/
theorem webhook_target_selection :
    (∀ (evt : List Char) (p : GitHubWebhookPayload) (custom env env' : List Char)
        (parse : List Char → Option (List Char)) (send : JID → Option Unit),
        evt ≠ [] → custom ≠ [] →
        handleGitHubWebhook true evt (some p) custom env parse send
          = handleGitHubWebhook true evt (some p) custom env' parse send)
    ∧ (∀ (evt : List Char) (p : GitHubWebhookPayload) (custom env : List Char)
        (parse : List Char → Option (List Char)) (send : JID → Option Unit),
        evt ≠ [] → custom ≠ [] → (formatGitHubMessage evt p).isSome = true →
        ∃ resp, handleGitHubWebhook true evt (some p) custom env parse send = some resp
          ∧ resp.targetSource = some (str "query_parameter")
          ∧ resp.totalTargets = 1
          ∧ resp.results.length = 1
          ∧ (∀ j ∈ resp.sendCalls, j = createTargetJID parse custom))
    ∧ (∀ (evt : List Char) (p : GitHubWebhookPayload) (env : List Char)
        (parse : List Char → Option (List Char)) (send : JID → Option Unit),
        evt ≠ [] → getNotificationTargets env = [] →
        handleGitHubWebhook true evt (some p) [] env parse send
          = some ⟨200, str "Webhook received but no notification targets configured",
              some evt, 0, 0, none, none, [], []⟩) := by
  refine ⟨?_, ?_, ?_⟩
  · intro evt p custom env env' parse send hevt hcustom
    simp [handleGitHubWebhook, hevt, hcustom]
  · intro evt p custom env parse send hevt hcustom hfmt
    obtain ⟨msg, hmsg⟩ := Option.isSome_iff_exists.mp hfmt
    simp only [handleGitHubWebhook, if_neg hevt]
    rw [if_neg (by simp), if_pos hcustom, hmsg]
    refine ⟨_, rfl, by simp [hcustom], rfl,
      (processTargets_singleton parse send custom).1,
      (processTargets_singleton parse send custom).2⟩
  · intro evt p env parse send hevt henv
    simp only [handleGitHubWebhook, if_neg hevt]
    rw [if_neg (by simp), if_neg (by simp), if_pos henv]

/-- C6 witness: a concrete connected request with override `"777"` ignores
two different configured lists and reports the query-parameter source; one
with no override and an empty list acknowledges with zero deliveries. -/
theorem webhook_target_selection_witness :
    (handleGitHubWebhook true (str "push") (some samplePayload) (str "777") (str "a")
        (fun _ => none) (fun _ => none)
      = handleGitHubWebhook true (str "push") (some samplePayload) (str "777") (str "b")
        (fun _ => none) (fun _ => none))
    ∧ (∃ resp, handleGitHubWebhook true (str "push") (some samplePayload) (str "777")
          (str "a") (fun _ => none) (fun _ => none) = some resp
        ∧ resp.targetSource = some (str "query_parameter")
        ∧ resp.totalTargets = 1
        ∧ resp.results.length = 1
        ∧ (∀ j ∈ resp.sendCalls, j = createTargetJID (fun _ => none) (str "777")))
    ∧ handleGitHubWebhook true (str "push") (some samplePayload) [] []
        (fun _ => none) (fun _ => none)
      = some ⟨200, str "Webhook received but no notification targets configured",
          some (str "push"), 0, 0, none, none, [], []⟩ :=
  ⟨webhook_target_selection.1 (str "push") samplePayload (str "777") (str "a") (str "b")
      (fun _ => none) (fun _ => none) (by decide) (by decide),
   webhook_target_selection.2.1 (str "push") samplePayload (str "777") (str "a")
      (fun _ => none) (fun _ => none) (by decide) (by decide) (by decide),
   webhook_target_selection.2.2 (str "push") samplePayload [] (fun _ => none)
      (fun _ => none) (by decide) (by decide)⟩

/-! ## AI reply with memory theorems -/

theorem Append_Data_key_no_trim (s : MemoryStore) (c a role text : List Char) (t : Int)
    (h : (s.Data (MemoryStore.key c a)).length + 1 ≤ s.MaxPerChat) :
    (s.Append c a role text t).Data (MemoryStore.key c a)
      = s.Data (MemoryStore.key c a) ++ ([⟨role, text, t⟩] : List MemoryMessage) := by
  simp only [MemoryStore.Append, if_true]
  rw [if_neg]
  intro hx
  obtain ⟨_, hlt⟩ := hx
  simp only [List.length_append, List.length_cons, List.length_nil] at hlt
  omega

/-- C10: if the generation call fails, `GetGeminiResponseWithMemory` returns
the error and both the in-memory store and the persisted file are exactly as
before — nothing is appended, nothing is saved.  Only on success are two
entries appended — the user turn then the assistant turn — and the store is
persisted. -/
theorem memory_untouched_on_generation_failure :
    (∀ (gen : List Char → Option (List Char)) (w : MemWorld) (c a u : List Char)
        (t1 t2 : Int),
        gen (combinedPrompt w c a u) = none →
        GetGeminiResponseWithMemory gen w c a u t1 t2 = (none, w))
    ∧ (∀ (gen : List Char → Option (List Char)) (w : MemWorld) (c a u : List Char)
        (t1 t2 : Int) (r : List Char),
        gen (combinedPrompt w c a u) = some r →
        (GetGeminiResponseWithMemory gen w c a u t1 t2).1 = some r
        ∧ ((w.store.Data (MemoryStore.key c a)).length + 2 ≤ w.store.MaxPerChat →
            (GetGeminiResponseWithMemory gen w c a u t1 t2).2.store.Data
                (MemoryStore.key c a)
              = w.store.Data (MemoryStore.key c a)
                ++ ([⟨str "user", u, t1⟩, ⟨str "assistant", r, t2⟩] : List MemoryMessage))
        ∧ (GetGeminiResponseWithMemory gen w c a u t1 t2).2.disk
            = (GetGeminiResponseWithMemory gen w c a u t1 t2).2.store.Data) := by
  constructor
  · intro gen w c a u t1 t2 h
    simp [GetGeminiResponseWithMemory, h]
  · intro gen w c a u t1 t2 r h
    refine ⟨by simp [GetGeminiResponseWithMemory, h], ?_, ?_⟩
    · intro hcap
      simp only [GetGeminiResponseWithMemory, h]
      have h1 := Append_Data_key_no_trim w.store c a (str "user") u t1 (by omega)
      have h2len : (((w.store.Append c a (str "user") u t1)).Data
          (MemoryStore.key c a)).length + 1 ≤ w.store.MaxPerChat := by
        rw [h1]
        simp only [List.length_append, List.length_cons, List.length_nil]
        omega
      have h2 := Append_Data_key_no_trim (w.store.Append c a (str "user") u t1) c a
        (str "assistant") r t2 h2len
      show ((w.store.Append c a (str "user") u t1).Append c a (str "assistant") r t2).Data
          (MemoryStore.key c a) = _
      rw [h2, h1, List.append_assoc]
      rfl
    · simp [GetGeminiResponseWithMemory, h, MemWorld.appendAndSave, MemWorld.save]

/-- C10 witness: a failing generation call over a fresh world changes
nothing; a succeeding one returns the reply. -/
theorem memory_untouched_on_generation_failure_witness :
    GetGeminiResponseWithMemory (fun _ => none) freshWorld (str "c") (str "b")
        (str "hi") 0 1 = (none, freshWorld)
      ∧ (GetGeminiResponseWithMemory (fun _ => some (str "ok")) freshWorld (str "c")
          (str "b") (str "hi") 0 1).1 = some (str "ok") :=
  ⟨memory_untouched_on_generation_failure.1 (fun _ => none) freshWorld (str "c")
      (str "b") (str "hi") 0 1 rfl,
   (memory_untouched_on_generation_failure.2 (fun _ => some (str "ok")) freshWorld
      (str "c") (str "b") (str "hi") 0 1 (str "ok") rfl).1⟩

end WaBot
